import Mathlib

/-!
Verification of the network transport abstraction layer
(`engine/common/net_transport.c`, `engine/common/net_transport_webrtc.c`).

The C code keeps two pieces of process-wide mutable state:
  * `g_current_transport` in `net_transport.c` — the registry cell holding the
    currently active transport descriptor (NULL until first set or first read);
  * `g_webrtc_state` in `net_transport_webrtc.c` — a fixed-capacity ring buffer
    of inbound packets plus head/tail/count indices and an `initialized` flag.

The shallow embedding turns each global into an explicit state value threaded
through the functions.  Machine `int` fields that the code keeps in `[0, 64)`
or `[0, 2048]` are modelled as `Nat` where the code never lets them go
negative (`head`, `tail`, `count`), and as `Int` where a caller can pass any
value (`len`, `maxlen`, return codes).  External C functions
(`webrtc_init_js`, `emscripten_webrtc_send`, `NET_StringToAdr`) are modelled
as parameters or constants, since only their results flow into this code.
-/

namespace XashNet

/-- `#define WEBRTC_QUEUE_SIZE 64` -/
def WEBRTC_QUEUE_SIZE : Nat := 64

/-- `#define WEBRTC_MAX_PACKET_SIZE 2048` -/
def WEBRTC_MAX_PACKET_SIZE : Nat := 2048

/-- Modelled from the spec: `netadr_t` lives outside this repository
(`netadr.h` is not part of the three source files); only its string form
matters here, since the sole address this code ever fabricates is the
placeholder produced by `NET_StringToAdr( "127.0.0.1:27015", ... )`. -/
abbrev netadr_t : Type := String

/-- The synthesized source address stamped on every inbound WebRTC packet
(`NET_StringToAdr( "127.0.0.1:27015", &packet->from )`). -/
def serverAdr : netadr_t := "127.0.0.1:27015"

/-- `webrtc_packet_t`: one slot of the ring buffer.  `data` holds the bytes
the slot currently stores (the C slot is a fixed 2048-byte array of which
only the first `length` bytes are meaningful). -/
structure webrtc_packet_t where
  data : List Nat
  length : Int
  from_ : netadr_t
deriving DecidableEq

/-- A zero-initialized packet slot, as produced by `= { 0 }` on
`g_webrtc_state` (2048 zero bytes, length 0, empty address). -/
def zeroPacket : webrtc_packet_t :=
  { data := List.replicate WEBRTC_MAX_PACKET_SIZE 0, length := 0, from_ := "" }

/-- The anonymous struct `g_webrtc_state`: the 64-slot queue, the ring
indices, and the `initialized` flag. -/
structure WebrtcState where
  queue : List webrtc_packet_t
  head : Nat
  tail : Nat
  count : Nat
  initialized : Bool
deriving DecidableEq

/-- `g_webrtc_state = { 0 }`: the state at process start. -/
def initialWebrtcState : WebrtcState :=
  { queue := List.replicate WEBRTC_QUEUE_SIZE zeroPacket
    head := 0, tail := 0, count := 0, initialized := false }

/-- The two transport descriptor singletons (`g_udp_transport` in
`net_transport.c` and `g_webrtc_transport` in `net_transport_webrtc.c`).
Each descriptor is immutable and unique per transport kind, so descriptor
identity is all the registry claims need; the five operation slots are the
functions modelled below. -/
inductive net_transport_t where
  | udp
  | webrtc
deriving DecidableEq

/-- The `.name` field of each descriptor (`"UDP"` / `"WebRTC"`). -/
def transport_name : net_transport_t → String
  | .udp => "UDP"
  | .webrtc => "WebRTC"

/-- The registry cell `g_current_transport` (`NULL` modelled as `none`). -/
abbrev Registry : Type := Option net_transport_t

/-- `NET_GetCurrentTransport`: if the cell is `NULL`, cache the UDP default
first; return the (now non-`NULL`) cell.  Returns the result together with
the updated cell, since the C function mutates the global. -/
def NET_GetCurrentTransport (reg : Registry) : net_transport_t × Registry :=
  match reg with
  | none => (net_transport_t.udp, some net_transport_t.udp)
  | some t => (t, some t)

/-- `NET_SetTransport`: remember the raw previous cell, overwrite the cell
only when the argument is non-`NULL`, and return the remembered value. -/
def NET_SetTransport (transport : Option net_transport_t) (reg : Registry) :
    Option net_transport_t × Registry :=
  let prev := reg
  match transport with
  | some t => (prev, some t)
  | none => (prev, reg)

/-- `NET_GetUDPTransport`: the default descriptor, regardless of the cell. -/
def NET_GetUDPTransport : net_transport_t := net_transport_t.udp

/-- `NET_WebRTC_Init`: the descriptor's `init` slot only logs and reports
success; the readiness handshake lives in `webrtc_init` below. -/
def NET_WebRTC_Init : Int := 1

/-- `webrtc_init`: the bridge-driven entry point.  `jsReady` is the result
of the external readiness check `webrtc_init_js()`.  On success it resets
`head`/`tail`/`count`, sets `initialized`, and self-installs the WebRTC
descriptor via `NET_SetTransport` (whose return value the C code discards).
Returns the C result together with both updated globals. -/
def webrtc_init (jsReady : Bool) (st : WebrtcState) (reg : Registry) :
    Int × WebrtcState × Registry :=
  if jsReady = false then
    (0, st, reg)
  else
    let st' : WebrtcState :=
      { st with head := 0, tail := 0, count := 0, initialized := true }
    let reg' := (NET_SetTransport (some net_transport_t.webrtc) reg).2
    (1, st', reg')

/-- `webrtc_push`: the data-ingress entry point.  Three guarded early
returns (not initialized; `len <= 0 || len > WEBRTC_MAX_PACKET_SIZE`;
`count >= WEBRTC_QUEUE_SIZE`), then `memcpy` of `len` bytes into the tail
slot, the placeholder source address, tail advance modulo the capacity and
a count increment. -/
def webrtc_push (st : WebrtcState) (data : List Nat) (len : Int) : WebrtcState :=
  if st.initialized = false then st
  else if len ≤ 0 ∨ (WEBRTC_MAX_PACKET_SIZE : Int) < len then st
  else if WEBRTC_QUEUE_SIZE ≤ st.count then st
  else
    let packet : webrtc_packet_t :=
      { data := data.take len.toNat, length := len, from_ := serverAdr }
    { st with
      queue := st.queue.set st.tail packet
      tail := (st.tail + 1) % WEBRTC_QUEUE_SIZE
      count := st.count + 1 }

/-- `NET_WebRTC_Shutdown`: clears only the flag and the count. -/
def NET_WebRTC_Shutdown (st : WebrtcState) : WebrtcState :=
  { st with initialized := false, count := 0 }

/-- `NET_WebRTC_Send`: `bridge` is the external `emscripten_webrtc_send`.
The second component records whether the bridge was invoked at all, so
"fails without attempting delivery" is statable. -/
def NET_WebRTC_Send (bridge : List Nat → Int → Int) (st : WebrtcState)
    (buf : List Nat) (len : Int) (to_ : netadr_t) : Int × Bool :=
  if st.initialized = false then
    (-1, false)
  else
    let result := bridge buf len
    if result ≠ len then (-1, true) else (len, true)

/-- `NET_WebRTC_Poll`: `0` when not initialized, else the exact count. -/
def NET_WebRTC_Poll (st : WebrtcState) : Int :=
  if st.initialized = false then 0
  else (st.count : Int)

/-- The outcome of one `NET_WebRTC_Recv` call: the C return value, the bytes
written into the caller's buffer (`none` when the buffer is untouched), the
value written through the `from` pointer (`none` when nothing is written),
and the updated queue state. -/
structure RecvResult where
  ret : Int
  buf : Option (List Nat)
  src : Option netadr_t
  st : WebrtcState
deriving DecidableEq

/-- `NET_WebRTC_Recv`: returns 0 when not initialized or empty; drops the
head packet with return `-1` when `packet->length > maxlen`; otherwise
copies `packet->length` bytes, optionally writes the source address, and
dequeues.  `wantSrc` models whether the caller passed a non-`NULL` `from`
pointer. -/
def NET_WebRTC_Recv (st : WebrtcState) (maxlen : Int) (wantSrc : Bool) :
    RecvResult :=
  if st.initialized = false ∨ st.count = 0 then
    ⟨0, none, none, st⟩
  else
    -- the C local `packet` is a pointer to the head slot; it is inlined here
    if maxlen < (st.queue.getD st.head zeroPacket).length then
      ⟨-1, none, none,
        { st with head := (st.head + 1) % WEBRTC_QUEUE_SIZE
                  count := st.count - 1 }⟩
    else
      ⟨(st.queue.getD st.head zeroPacket).length,
        some ((st.queue.getD st.head zeroPacket).data.take
          (st.queue.getD st.head zeroPacket).length.toNat),
        if wantSrc then some (st.queue.getD st.head zeroPacket).from_ else none,
        { st with head := (st.head + 1) % WEBRTC_QUEUE_SIZE
                  count := st.count - 1 }⟩

/-- The WebRTC state right after a successful `webrtc_init` from the process
initial state: empty queue, ready. -/
def readyState : WebrtcState := (webrtc_init true initialWebrtcState none).2.1

/-- A small concrete packet slot used by concrete instantiations. -/
def threeBytePacket : webrtc_packet_t :=
  { data := [1, 2, 3], length := 3, from_ := serverAdr }

/-- A ready state holding exactly one queued 3-byte packet at slot 0. -/
def onePacketState : WebrtcState :=
  { queue := (List.replicate WEBRTC_QUEUE_SIZE zeroPacket).set 0 threeBytePacket
    head := 0, tail := 1, count := 1, initialized := true }

/-- The state of scenario B after `init()` succeeded and a 17-byte packet
was pushed. -/
def scenarioAfterPush : WebrtcState :=
  webrtc_push readyState (List.replicate 17 1) 17

/-- C4: `webrtc_init` with the bridge not ready returns 0 and leaves both
the queue state and the registry exactly as they were; with the bridge
ready it returns 1, resets `head`/`tail`/`count` to 0, sets `initialized`,
and installs the WebRTC descriptor in the registry. -/
theorem webrtc_init_handshake (st : WebrtcState) (reg : Registry) :
    webrtc_init false st reg = (0, st, reg) ∧
    webrtc_init true st reg =
      (1, { st with head := 0, tail := 0, count := 0, initialized := true },
        some net_transport_t.webrtc) :=
  ⟨rfl, rfl⟩

/-- C5: `webrtc_push` leaves the whole state unchanged in each of its three
error cases — not initialized, non-positive or oversized length, queue
full — so `count` never increases on those branches and a malformed packet
is never partially stored. -/
theorem push_error_cases_noop (st : WebrtcState) (data : List Nat) (len : Int) :
    (st.initialized = false → webrtc_push st data len = st) ∧
    (len ≤ 0 → webrtc_push st data len = st) ∧
    ((WEBRTC_MAX_PACKET_SIZE : Int) < len → webrtc_push st data len = st) ∧
    (WEBRTC_QUEUE_SIZE ≤ st.count → webrtc_push st data len = st) := by
  refine ⟨fun h => ?_, fun h => ?_, fun h => ?_, fun h => ?_⟩ <;>
  · unfold webrtc_push
    split_ifs <;> simp_all <;> omega

/-- Witness for C5 at a concrete input: pushing into the uninitialized
process-start state is a no-op. -/
theorem push_error_cases_noop_witness :
    webrtc_push initialWebrtcState [1] 1 = initialWebrtcState :=
  (push_error_cases_noop initialWebrtcState [1] 1).1 rfl

/-- C9: `NET_GetCurrentTransport` never yields an unset value — on a fresh
(`NULL`) cell it resolves and caches the UDP default, whose name is
`"UDP"`; on an already-populated cell it returns the cached descriptor. -/
theorem get_current_transport_never_null :
    NET_GetCurrentTransport none =
      (net_transport_t.udp, some net_transport_t.udp) ∧
    transport_name (NET_GetCurrentTransport none).1 = "UDP" ∧
    ∀ t : net_transport_t, NET_GetCurrentTransport (some t) = (t, some t) :=
  ⟨rfl, rfl, fun _ => rfl⟩

/-- C10: `NET_WebRTC_Shutdown` touches only the `initialized` flag and
`count`; `head`, `tail`, and every queue slot survive untouched, and a
later successful `webrtc_init` is what resets `head` and `tail` to 0. -/
theorem shutdown_frame_effect (st : WebrtcState) (reg : Registry) :
    (NET_WebRTC_Shutdown st).initialized = false ∧
    (NET_WebRTC_Shutdown st).count = 0 ∧
    (NET_WebRTC_Shutdown st).head = st.head ∧
    (NET_WebRTC_Shutdown st).tail = st.tail ∧
    (NET_WebRTC_Shutdown st).queue = st.queue ∧
    (webrtc_init true (NET_WebRTC_Shutdown st) reg).2.1.head = 0 ∧
    (webrtc_init true (NET_WebRTC_Shutdown st) reg).2.1.tail = 0 :=
  ⟨rfl, rfl, rfl, rfl, rfl, rfl, rfl⟩

/-- Counterexample to C2: in a fresh process (registry cell `NULL`, never
set and never read) `NET_SetTransport` returns the raw `NULL` cell, not the
UDP default that `NET_GetCurrentTransport` would have returned just before
the call. -/
theorem set_transport_fresh_cex :
    (NET_SetTransport (some net_transport_t.webrtc) none).1 = none ∧
    (NET_GetCurrentTransport none).1 = net_transport_t.udp ∧
    (NET_SetTransport (some net_transport_t.webrtc) none).1 ≠
      some (NET_GetCurrentTransport none).1 :=
  ⟨rfl, rfl, by decide⟩

/-- C2 (amended): `NET_SetTransport` with a non-null descriptor installs it
and returns the raw previous registry cell — which equals what
`NET_GetCurrentTransport` would have returned only when the cell was
already populated, and is `NULL` in a fresh process; `NET_SetTransport`
with null changes nothing and returns that same raw cell. -/
theorem set_transport_returns_previous_cell (t prev : net_transport_t)
    (reg : Registry) :
    (NET_SetTransport (some t) reg).2 = some t ∧
    (NET_SetTransport (some t) reg).1 = reg ∧
    NET_SetTransport none reg = (reg, reg) ∧
    (NET_SetTransport (some t) (some prev)).1 =
      some (NET_GetCurrentTransport (some prev)).1 :=
  ⟨rfl, rfl, rfl, rfl⟩

/-- Counterexample to C6: with the transport ready and a bridge whose
accepted-byte-count (0) differs from the requested length (−1), the call
still returns exactly the requested length, because the −1 failure code
coincides with it — refuting "returns exactly length if and only if the
accepted count equals length". -/
theorem send_exact_iff_cex :
    (NET_WebRTC_Send (fun _ _ => 0) readyState [] (-1) serverAdr).1 = -1 ∧
    (fun (_ : List Nat) (_ : Int) => (0 : Int)) [] (-1) ≠ -1 :=
  ⟨rfl, by decide⟩

/-- C6 (amended): `NET_WebRTC_Send` fails with −1 and without invoking the
bridge when not initialized; when initialized it always invokes the bridge
and returns `len` when the accepted count equals `len`, otherwise −1, so
every return value is either `len` itself or negative, and for non-negative
`len` the return equals `len` exactly when the bridge accepted `len`. -/
theorem send_result_policy (bridge : List Nat → Int → Int) (st : WebrtcState)
    (buf : List Nat) (len : Int) (to_ : netadr_t) :
    (st.initialized = false → NET_WebRTC_Send bridge st buf len to_ = (-1, false)) ∧
    (st.initialized = true →
      (NET_WebRTC_Send bridge st buf len to_).2 = true ∧
      (NET_WebRTC_Send bridge st buf len to_).1 =
        (if bridge buf len = len then len else -1) ∧
      ((NET_WebRTC_Send bridge st buf len to_).1 = len ∨
        (NET_WebRTC_Send bridge st buf len to_).1 < 0) ∧
      (0 ≤ len →
        ((NET_WebRTC_Send bridge st buf len to_).1 = len ↔
          bridge buf len = len))) := by
  unfold NET_WebRTC_Send
  constructor
  · intro h; simp [h]
  · intro h
    simp only [h]
    by_cases hb : bridge buf len = len <;> simp [hb] <;> omega

/-- Witness for C6 at a concrete input: a bridge that accepts everything
makes a 5-byte send from the ready state return exactly 5. -/
theorem send_result_policy_witness :
    (NET_WebRTC_Send (fun _ l => l) readyState [2] 5 serverAdr).1 = 5 :=
  (((send_result_policy (fun _ l => l) readyState [2] 5 serverAdr).2
    rfl).2.2.2 (by omega)).mpr rfl

/-- C8: `NET_WebRTC_Poll` returns 0 when not initialized and the exact
queue count when initialized; concretely, after a successful init and one
17-byte push, poll reports 1, a receive into a 64-byte buffer returns 17,
and poll then reports 0. -/
theorem poll_exact_count :
    (∀ st : WebrtcState, st.initialized = false → NET_WebRTC_Poll st = 0) ∧
    (∀ st : WebrtcState, st.initialized = true →
      NET_WebRTC_Poll st = (st.count : Int)) ∧
    NET_WebRTC_Poll scenarioAfterPush = 1 ∧
    (NET_WebRTC_Recv scenarioAfterPush 64 true).ret = 17 ∧
    NET_WebRTC_Poll (NET_WebRTC_Recv scenarioAfterPush 64 true).st = 0 := by
  refine ⟨fun st h => ?_, fun st h => ?_, by decide, by decide, by decide⟩ <;>
    simp [NET_WebRTC_Poll, h]

/-- Witness for C8 at a concrete input: the uninitialized process-start
state polls as 0. -/
theorem poll_exact_count_witness : NET_WebRTC_Poll initialWebrtcState = 0 :=
  poll_exact_count.1 initialWebrtcState rfl

/-- C3: with the transport ready and the queue non-empty, a receive whose
buffer is smaller than the head packet drops that packet (count falls by
exactly one, head advances) and returns a negative value with the buffer
untouched; otherwise it returns the head packet's byte count, hands over
its bytes and (when requested) the synthesized source address, and
dequeues; when not ready or empty it returns 0 and changes nothing. -/
theorem recv_case_analysis (st : WebrtcState) (maxlen : Int) (wantSrc : Bool) :
    (st.initialized = false ∨ st.count = 0 →
      NET_WebRTC_Recv st maxlen wantSrc = ⟨0, none, none, st⟩) ∧
    (st.initialized = true → 0 < st.count →
      (maxlen < (st.queue.getD st.head zeroPacket).length →
        (NET_WebRTC_Recv st maxlen wantSrc).ret < 0 ∧
        (NET_WebRTC_Recv st maxlen wantSrc).buf = none ∧
        (NET_WebRTC_Recv st maxlen wantSrc).st.count + 1 = st.count ∧
        (NET_WebRTC_Recv st maxlen wantSrc).st.head =
          (st.head + 1) % WEBRTC_QUEUE_SIZE) ∧
      ((st.queue.getD st.head zeroPacket).length ≤ maxlen →
        (NET_WebRTC_Recv st maxlen wantSrc).ret =
          (st.queue.getD st.head zeroPacket).length ∧
        (NET_WebRTC_Recv st maxlen wantSrc).buf =
          some ((st.queue.getD st.head zeroPacket).data.take
            (st.queue.getD st.head zeroPacket).length.toNat) ∧
        (wantSrc = true → (NET_WebRTC_Recv st maxlen wantSrc).src =
          some (st.queue.getD st.head zeroPacket).from_) ∧
        (NET_WebRTC_Recv st maxlen wantSrc).st.count + 1 = st.count ∧
        (NET_WebRTC_Recv st maxlen wantSrc).st.head =
          (st.head + 1) % WEBRTC_QUEUE_SIZE)) := by
  unfold NET_WebRTC_Recv
  constructor
  · intro h; simp [h]
  · intro hi hc
    have hc' : ¬ st.count = 0 := by omega
    simp only [List.getD_eq_getElem?_getD]
    constructor
    · intro hlt
      simp [hi, hc', hlt]
      omega
    · intro hle
      have hnlt : ¬ maxlen < (st.queue[st.head]?.getD zeroPacket).length := by
        omega
      simp [hi, hc', hnlt]
      omega

/-- Witness for C3 at a concrete input: receiving the queued 3-byte packet
into a 2-byte buffer drops it and returns a negative value. -/
theorem recv_case_analysis_witness :
    (NET_WebRTC_Recv onePacketState 2 true).ret < 0 ∧
    (NET_WebRTC_Recv onePacketState 2 true).buf = none ∧
    (NET_WebRTC_Recv onePacketState 2 true).st.count + 1 = onePacketState.count ∧
    (NET_WebRTC_Recv onePacketState 2 true).st.head =
      (onePacketState.head + 1) % WEBRTC_QUEUE_SIZE :=
  ((recv_case_analysis onePacketState 2 true).2 rfl (by decide)).1 (by decide)

/-- One externally observable call on the WebRTC transport's globals: the
four entry points named by the occupancy claim. -/
inductive WebrtcOp where
  | push (data : List Nat) (len : Int)
  | recv (maxlen : Int) (wantSrc : Bool)
  | init (jsReady : Bool)
  | shutdown

/-- Apply one call to the pair of globals (`g_webrtc_state`,
`g_current_transport`); return values are discarded, state is kept. -/
def stepOp (s : WebrtcState × Registry) (op : WebrtcOp) :
    WebrtcState × Registry :=
  match op with
  | .push data len => (webrtc_push s.1 data len, s.2)
  | .recv maxlen wantSrc => ((NET_WebRTC_Recv s.1 maxlen wantSrc).st, s.2)
  | .init jsReady =>
      let r := webrtc_init jsReady s.1 s.2
      (r.2.1, r.2.2)
  | .shutdown => (NET_WebRTC_Shutdown s.1, s.2)

/-- Run a call sequence from the process start state (`= { 0 }` globals). -/
def runOps (ops : List WebrtcOp) : WebrtcState × Registry :=
  ops.foldl stepOp (initialWebrtcState, none)

/-- The index bounds every reachable `g_webrtc_state` satisfies. -/
def IndexBounds (st : WebrtcState) : Prop :=
  st.head < WEBRTC_QUEUE_SIZE ∧ st.tail < WEBRTC_QUEUE_SIZE ∧
  st.count ≤ WEBRTC_QUEUE_SIZE

theorem indexBounds_step (s : WebrtcState × Registry) (op : WebrtcOp)
    (h : IndexBounds s.1) : IndexBounds (stepOp s op).1 := by
  obtain ⟨h1, h2, h3⟩ := h
  simp only [WEBRTC_QUEUE_SIZE] at *
  cases op with
  | push data len =>
      simp only [stepOp, webrtc_push, WEBRTC_QUEUE_SIZE, WEBRTC_MAX_PACKET_SIZE,
        IndexBounds]
      split_ifs <;> simp_all <;> omega
  | recv maxlen wantSrc =>
      simp only [stepOp, NET_WebRTC_Recv, WEBRTC_QUEUE_SIZE, IndexBounds]
      split_ifs <;> simp_all <;> omega
  | init jsReady =>
      simp only [stepOp, webrtc_init, WEBRTC_QUEUE_SIZE, IndexBounds]
      split_ifs <;> simp_all
  | shutdown =>
      simp only [stepOp, NET_WebRTC_Shutdown, WEBRTC_QUEUE_SIZE, IndexBounds]
      simp_all

theorem indexBounds_foldl :
    ∀ (ops : List WebrtcOp) (s : WebrtcState × Registry),
      IndexBounds s.1 → IndexBounds (ops.foldl stepOp s).1
  | [], _, h => h
  | op :: ops, s, h =>
      indexBounds_foldl ops (stepOp s op) (indexBounds_step s op h)

/-- C7: after any sequence of `webrtc_push` / `NET_WebRTC_Recv` /
`webrtc_init` / `NET_WebRTC_Shutdown` calls from the process start state,
the count stays within `0 ≤ count ≤ capacity` (count is a `Nat` here, so
the lower bound is inherent; the C `int` never goes below 0 on these
paths), `head` and `tail` stay valid indices, and the count is 0
immediately after a shutdown and immediately after a successful init. -/
theorem queue_occupancy_invariant (ops : List WebrtcOp) :
    (runOps ops).1.count ≤ WEBRTC_QUEUE_SIZE ∧
    (runOps ops).1.head < WEBRTC_QUEUE_SIZE ∧
    (runOps ops).1.tail < WEBRTC_QUEUE_SIZE ∧
    (runOps (ops ++ [WebrtcOp.shutdown])).1.count = 0 ∧
    (runOps (ops ++ [WebrtcOp.init true])).1.count = 0 := by
  have h := indexBounds_foldl ops (initialWebrtcState, none)
    ⟨by simp [initialWebrtcState, WEBRTC_QUEUE_SIZE],
     by simp [initialWebrtcState, WEBRTC_QUEUE_SIZE],
     by simp [initialWebrtcState, WEBRTC_QUEUE_SIZE]⟩
  refine ⟨h.2.2, h.1, h.2.1, ?_, ?_⟩ <;>
    simp [runOps, List.foldl_append, stepOp, NET_WebRTC_Shutdown, webrtc_init]

/-- The payload a slot currently delivers: the first `length` bytes of its
buffer — exactly the bytes `NET_WebRTC_Recv` copies out. -/
def payloadOf (p : webrtc_packet_t) : List Nat := p.data.take p.length.toNat

/-- The logical queue contents, oldest first: `count` slots starting at
`head`, wrapping modulo the capacity. -/
def contentsPayloads (st : WebrtcState) : List (List Nat) :=
  (List.range st.count).map
    (fun i =>
      payloadOf (st.queue.getD ((st.head + i) % WEBRTC_QUEUE_SIZE) zeroPacket))

/-- A slot holding a packet that `webrtc_push` accepted. -/
def GoodPacket (p : webrtc_packet_t) : Prop :=
  0 < p.length ∧ p.length ≤ (WEBRTC_MAX_PACKET_SIZE : Int)

/-- The ring-buffer invariant: full-capacity backing store, in-range head,
occupancy within capacity, `tail` sitting `count` slots past `head`, and
every live slot holding an accepted packet. -/
def QueueInv (st : WebrtcState) : Prop :=
  st.queue.length = WEBRTC_QUEUE_SIZE ∧
  st.head < WEBRTC_QUEUE_SIZE ∧
  st.count ≤ WEBRTC_QUEUE_SIZE ∧
  st.tail = (st.head + st.count) % WEBRTC_QUEUE_SIZE ∧
  ∀ i, i < st.count →
    GoodPacket (st.queue.getD ((st.head + i) % WEBRTC_QUEUE_SIZE) zeroPacket)

/-- A bridge message delivered through `webrtc_push` with its true byte
count, the way `library_webrtc.js` invokes the ingress entry point. -/
def pushMsg (st : WebrtcState) (msg : List Nat) : WebrtcState :=
  webrtc_push st msg (msg.length : Int)

/-- Deliver a sequence of bridge messages in order. -/
def pushList (st : WebrtcState) (msgs : List (List Nat)) : WebrtcState :=
  msgs.foldl pushMsg st

/-- Which messages the code keeps, in order, starting from `c` queued
packets: a message survives iff its length is positive, at most the
maximum packet size, and the queue is not yet full. -/
def pushedPayloads : Nat → List (List Nat) → List (List Nat)
  | _, [] => []
  | c, msg :: msgs =>
    if 0 < msg.length ∧ msg.length ≤ WEBRTC_MAX_PACKET_SIZE ∧
        c < WEBRTC_QUEUE_SIZE then
      msg :: pushedPayloads (c + 1) msgs
    else
      pushedPayloads c msgs

/-- Which messages claim C1's wording predicts are kept: drops happen only
for oversize or queue-full, with no drop for a non-positive length.  This
definition follows the claim's words, for comparison with the code's
`pushedPayloads`. -/
def claimedPayloads : Nat → List (List Nat) → List (List Nat)
  | _, [] => []
  | c, msg :: msgs =>
    if msg.length ≤ WEBRTC_MAX_PACKET_SIZE ∧ c < WEBRTC_QUEUE_SIZE then
      msg :: claimedPayloads (c + 1) msgs
    else
      claimedPayloads c msgs

/-- Repeatedly call `NET_WebRTC_Recv` with a maximum-size buffer and no
source pointer, collecting delivered payloads until nothing arrives. -/
def drainAll : Nat → WebrtcState → List (List Nat)
  | 0, _ => []
  | fuel + 1, st =>
    let r := NET_WebRTC_Recv st (WEBRTC_MAX_PACKET_SIZE : Int) false
    if 0 < r.ret then r.buf.getD [] :: drainAll fuel r.st else []

theorem getD_set_of_ne {α : Type} (a d : α) (l : List α) (i j : Nat)
    (h : i ≠ j) : (l.set i a).getD j d = l.getD j d := by
  simp [List.getD_eq_getElem?_getD, List.getElem?_set_ne h]

theorem getD_set_self {α : Type} (a d : α) (l : List α) (i : Nat)
    (h : i < l.length) : (l.set i a).getD i d = a := by
  simp [List.getD_eq_getElem?_getD, List.getElem?_set_self, h]

theorem pushMsg_contents (st : WebrtcState) (msg : List Nat)
    (hinv : QueueInv st) (hi : st.initialized = true) :
    QueueInv (pushMsg st msg) ∧
    (pushMsg st msg).initialized = true ∧
    (pushMsg st msg).count =
      (if 0 < msg.length ∧ msg.length ≤ WEBRTC_MAX_PACKET_SIZE ∧
          st.count < WEBRTC_QUEUE_SIZE then st.count + 1 else st.count) ∧
    contentsPayloads (pushMsg st msg) =
      contentsPayloads st ++
        (if 0 < msg.length ∧ msg.length ≤ WEBRTC_MAX_PACKET_SIZE ∧
            st.count < WEBRTC_QUEUE_SIZE then [msg] else []) := by
  obtain ⟨hlen, hhead, hcnt, htail, hgood⟩ := hinv
  simp only [WEBRTC_QUEUE_SIZE, WEBRTC_MAX_PACKET_SIZE] at *
  by_cases hacc : 0 < msg.length ∧ msg.length ≤ 2048 ∧ st.count < 64
  · -- the push is accepted
    have h1n : ¬(msg = [] ∨ 2048 < msg.length) := by
      rintro (he | hgt)
      · rw [he] at hacc; simp at hacc
      · omega
    have h2 : ¬(64 ≤ st.count) := by omega
    have hpush : pushMsg st msg =
        { st with
          queue := st.queue.set st.tail
            { data := msg.take (msg.length : Int).toNat
              length := (msg.length : Int), from_ := serverAdr }
          tail := (st.tail + 1) % 64
          count := st.count + 1 } := by
      unfold pushMsg webrtc_push
      simp only [WEBRTC_QUEUE_SIZE, WEBRTC_MAX_PACKET_SIZE]
      simp [hi, h1n, h2]
    rw [hpush]
    have htail64 : st.tail < 64 := by omega
    have htail_len : st.tail < st.queue.length := by omega
    refine ⟨?_, by simpa using hi, by simp [hacc], ?_⟩
    · -- QueueInv survives the enqueue
      refine ⟨by simp [WEBRTC_QUEUE_SIZE, hlen], by simp [WEBRTC_QUEUE_SIZE]; omega,
        by simp only [WEBRTC_QUEUE_SIZE]; omega,
        by simp only [WEBRTC_QUEUE_SIZE]; omega, ?_⟩
      intro i hilt
      simp only [WEBRTC_QUEUE_SIZE] at hilt ⊢
      by_cases hic : i < st.count
      · have hne : st.tail ≠ (st.head + i) % 64 := by omega
        rw [getD_set_of_ne _ _ _ _ _ hne]
        exact hgood i hic
      · have hieq : i = st.count := by omega
        subst hieq
        rw [show (st.head + st.count) % 64 = st.tail from htail.symm,
          getD_set_self _ _ _ _ htail_len]
        simp only [GoodPacket, WEBRTC_MAX_PACKET_SIZE]
        refine ⟨by omega, by omega⟩
    · -- the contents gained exactly the new message at the end
      unfold contentsPayloads
      simp only [WEBRTC_QUEUE_SIZE, hacc, if_true, List.range_succ,
        List.map_append, List.map_cons, List.map_nil]
      congr 1
      · apply List.map_congr_left
        intro i hmem
        have hic : i < st.count := List.mem_range.mp hmem
        have hne : st.tail ≠ (st.head + i) % 64 := by omega
        rw [getD_set_of_ne _ _ _ _ _ hne]
      · rw [show (st.head + st.count) % 64 = st.tail from htail.symm,
          getD_set_self _ _ _ _ htail_len]
        unfold payloadOf
        simp
  · -- the push is dropped: the state is unchanged
    have hdrop : pushMsg st msg = st := by
      unfold pushMsg webrtc_push
      simp only [WEBRTC_QUEUE_SIZE, WEBRTC_MAX_PACKET_SIZE, hi]
      split_ifs with hg1 hg2 hg3 <;>
        first
          | rfl
          | (exfalso; apply hacc; refine ⟨?_, ?_, ?_⟩ <;> omega)
    rw [hdrop]
    exact ⟨⟨hlen, hhead, hcnt, htail, hgood⟩, hi, by simp [hacc], by simp [hacc]⟩

theorem recv_pop (st : WebrtcState) (hinv : QueueInv st)
    (hi : st.initialized = true) (hc : 0 < st.count) :
    NET_WebRTC_Recv st (WEBRTC_MAX_PACKET_SIZE : Int) false =
      ⟨(st.queue.getD st.head zeroPacket).length,
        some (payloadOf (st.queue.getD st.head zeroPacket)), none,
        { st with head := (st.head + 1) % WEBRTC_QUEUE_SIZE
                  count := st.count - 1 }⟩ ∧
    0 < (st.queue.getD st.head zeroPacket).length ∧
    QueueInv { st with head := (st.head + 1) % WEBRTC_QUEUE_SIZE
                       count := st.count - 1 } ∧
    contentsPayloads st =
      payloadOf (st.queue.getD st.head zeroPacket) ::
        contentsPayloads
          { st with head := (st.head + 1) % WEBRTC_QUEUE_SIZE
                    count := st.count - 1 } := by
  obtain ⟨hlen, hhead, hcnt, htail, hgood⟩ := hinv
  simp only [WEBRTC_QUEUE_SIZE, WEBRTC_MAX_PACKET_SIZE, GoodPacket] at hlen hhead hcnt htail hgood ⊢
  have hhd : (st.head + 0) % 64 = st.head := by omega
  have hgood0 := hgood 0 hc
  rw [hhd] at hgood0
  obtain ⟨hpos, hle⟩ := hgood0
  have hcond : ¬(st.initialized = false ∨ st.count = 0) := by
    simp [hi]; omega
  have hnlt : ¬(((2048 : Nat) : Int) < (st.queue.getD st.head zeroPacket).length) := by
    omega
  refine ⟨?_, hpos, ?_, ?_⟩
  · unfold NET_WebRTC_Recv
    simp only [WEBRTC_QUEUE_SIZE, WEBRTC_MAX_PACKET_SIZE]
    rw [if_neg hcond, if_neg hnlt]
    rfl
  · refine ⟨by simpa using hlen,
      by simp only [WEBRTC_QUEUE_SIZE]; omega,
      by simp only [WEBRTC_QUEUE_SIZE]; omega,
      by simp only [WEBRTC_QUEUE_SIZE]; omega, ?_⟩
    intro i hilt
    simp only [WEBRTC_QUEUE_SIZE, GoodPacket, WEBRTC_MAX_PACKET_SIZE] at hilt ⊢
    rw [show (((st.head + 1) % 64) + i) % 64 = (st.head + (i + 1)) % 64 by omega]
    exact hgood (i + 1) (by omega)
  · simp only [contentsPayloads, WEBRTC_QUEUE_SIZE]
    obtain ⟨c, hc'⟩ : ∃ c, st.count = c + 1 := ⟨st.count - 1, by omega⟩
    rw [hc']
    simp only [Nat.add_sub_cancel]
    rw [List.range_succ_eq_map]
    simp only [List.map_cons, List.map_map]
    congr 1
    · simp [Nat.mod_eq_of_lt hhead]
    · apply List.map_congr_left
      intro i hmem
      simp only [Function.comp_apply, Nat.succ_eq_add_one]
      rw [show (st.head + (i + 1)) % 64 = (((st.head + 1) % 64) + i) % 64 by omega]

theorem drainAll_eq (fuel : Nat) :
    ∀ st : WebrtcState, QueueInv st → st.initialized = true →
      st.count ≤ fuel → drainAll fuel st = contentsPayloads st := by
  induction fuel with
  | zero =>
      intro st hinv hi hc
      have h0 : st.count = 0 := by omega
      simp [drainAll, contentsPayloads, h0]
  | succ f ih =>
      intro st hinv hi hc
      by_cases hc0 : st.count = 0
      · have hr : NET_WebRTC_Recv st (WEBRTC_MAX_PACKET_SIZE : Int) false =
            ⟨0, none, none, st⟩ := by
          unfold NET_WebRTC_Recv
          rw [if_pos (Or.inr hc0)]
        simp [drainAll, hr, contentsPayloads, hc0]
      · have hcpos : 0 < st.count := Nat.pos_of_ne_zero hc0
        obtain ⟨hr, hpos, hinv', hcont⟩ := recv_pop st hinv hi hcpos
        have hinit' : ({ st with head := (st.head + 1) % WEBRTC_QUEUE_SIZE
                                 count := st.count - 1 } :
            WebrtcState).initialized = true := hi
        simp only [drainAll, hr]
        rw [if_pos (by simpa using hpos)]
        simp only [Option.getD_some]
        rw [hcont]
        congr 1
        exact ih _ hinv' hinit' (by dsimp only; omega)

theorem pushList_contents :
    ∀ (msgs : List (List Nat)) (st : WebrtcState), QueueInv st →
      st.initialized = true →
      QueueInv (pushList st msgs) ∧ (pushList st msgs).initialized = true ∧
      contentsPayloads (pushList st msgs) =
        contentsPayloads st ++ pushedPayloads st.count msgs
  | [], st, hinv, hi => ⟨hinv, hi, by simp [pushList, pushedPayloads]⟩
  | msg :: msgs, st, hinv, hi => by
      obtain ⟨hinv1, hi1, hcount, hcont⟩ := pushMsg_contents st msg hinv hi
      obtain ⟨hinv2, hi2, hcont2⟩ :=
        pushList_contents msgs (pushMsg st msg) hinv1 hi1
      refine ⟨hinv2, hi2, ?_⟩
      have hstep : pushList st (msg :: msgs) = pushList (pushMsg st msg) msgs :=
        rfl
      rw [hstep, hcont2, hcont, hcount]
      by_cases hacc : 0 < msg.length ∧ msg.length ≤ WEBRTC_MAX_PACKET_SIZE ∧
          st.count < WEBRTC_QUEUE_SIZE
      · simp [pushedPayloads, hacc]
      · simp [pushedPayloads, hacc]

/-- A freshly initialized transport state over an arbitrary 64-slot
backing store, exactly what a successful `webrtc_init` leaves behind. -/
def freshQueueState (q : List webrtc_packet_t) : WebrtcState :=
  { queue := q, head := 0, tail := 0, count := 0, initialized := true }

/-- A ready state whose queue is at capacity. -/
def fullQueueState : WebrtcState :=
  { queue := List.replicate WEBRTC_QUEUE_SIZE zeroPacket
    head := 0, tail := 0, count := WEBRTC_QUEUE_SIZE, initialized := true }

/-- Counterexample to C1: a `webrtc_push` call delivering a zero-length
message (a legal empty DataChannel message) is dropped by the code although
it is neither oversize nor pushed into a full queue, so the retrievable
packets are not "the pushed packets minus those dropped for oversize or
queue-full": after pushing the empty packet into a fresh ready transport,
nothing is retrievable, while the claim's drop policy (`claimedPayloads`)
keeps it. -/
theorem fifo_claim_empty_push_cex :
    drainAll WEBRTC_QUEUE_SIZE (pushList readyState [[]]) = [] ∧
    claimedPayloads 0 [[]] = [[]] ∧
    drainAll WEBRTC_QUEUE_SIZE (pushList readyState [[]]) ≠
      claimedPayloads 0 [[]] := by
  refine ⟨by decide, by decide, by decide⟩

/-- C1 (amended): from a freshly initialized transport, the packets
retrievable via `NET_WebRTC_Recv` are exactly the pushed packets minus
those dropped for non-positive length, oversize, or queue-full, in push
order (FIFO); and a push attempted while the queue already holds
`capacity` packets leaves the whole state — hence every queued packet and
their retrieval order — unchanged, with the overflowing packet never
stored. -/
theorem fifo_retrievable_eq_pushed (q : List webrtc_packet_t)
    (hq : q.length = WEBRTC_QUEUE_SIZE) (msgs : List (List Nat)) :
    drainAll WEBRTC_QUEUE_SIZE (pushList (freshQueueState q) msgs) =
      pushedPayloads 0 msgs ∧
    ∀ (st : WebrtcState) (data : List Nat) (len : Int),
      WEBRTC_QUEUE_SIZE ≤ st.count → webrtc_push st data len = st := by
  constructor
  · have hinv0 : QueueInv (freshQueueState q) := by
      refine ⟨hq, ?_, ?_, ?_, ?_⟩
      · simp [freshQueueState, WEBRTC_QUEUE_SIZE]
      · simp [freshQueueState]
      · simp [freshQueueState]
      · intro i h
        simp [freshQueueState] at h
    obtain ⟨hinvP, hiP, hcontP⟩ := pushList_contents msgs _ hinv0 rfl
    have hcard := hinvP.2.2.1
    rw [drainAll_eq WEBRTC_QUEUE_SIZE _ hinvP hiP hcard, hcontP]
    simp [contentsPayloads, freshQueueState]
  · intro st data len hfull
    unfold webrtc_push
    split_ifs with g1 g2 g3 <;> first | rfl | exact absurd hfull g3

/-- Witness for C1 at concrete inputs: with a 64-slot zeroed backing store,
pushing a 2-byte message then an empty message retrieves exactly the
2-byte one, and a push into a full queue is the identity. -/
theorem fifo_retrievable_eq_pushed_witness :
    (List.replicate WEBRTC_QUEUE_SIZE zeroPacket).length = WEBRTC_QUEUE_SIZE ∧
    drainAll WEBRTC_QUEUE_SIZE
        (pushList (freshQueueState (List.replicate WEBRTC_QUEUE_SIZE zeroPacket))
          [[5, 6], []]) = pushedPayloads 0 [[5, 6], []] ∧
    webrtc_push fullQueueState [7] 1 = fullQueueState :=
  ⟨by simp,
    (fifo_retrievable_eq_pushed _ (by simp) [[5, 6], []]).1,
    (fifo_retrievable_eq_pushed (List.replicate WEBRTC_QUEUE_SIZE zeroPacket)
      (by simp) []).2 fullQueueState [7] 1 (Nat.le_refl _)⟩

end XashNet
